import Mathlib

/-!
Shallow embedding of the cordmaur/SentinelDownloader repository
(`src/sentineldownloader/ssat_database.py` and
`src/sentineldownloader/ssat_downloader.py`) together with proofs that settle
the specification claims about it.

Modelling conventions:
* A pandas DataFrame row becomes a `Row`; the DataFrame index (the opaque
  product id that `sentinelsat.to_dataframe` uses as index, which the spec's
  data model calls "the identifier" / key) is the `uuid` field, and the
  `identifier` and `title` columns are separate fields, exactly as the source
  distinguishes `df.index`, `df['identifier']` and `df['title']`.
* The filesystem is a `FileSystem`: `paths` is the set of existing files and
  directories that the code probes with `Path.exists`, and `csv` holds the
  persisted ledger file written by `DataFrame.to_csv` / read by `read_csv`
  (the ledger file and the image/qlook artifacts live in different
  namespaces, so they are kept in separate components).
* Logging, matplotlib plotting and the external `sentinelsat` client are out
  of scope (the spec declares them so); where the external client's bulk
  download would mutate the filesystem, the operation takes an explicit
  function parameter standing for that effect.
* `concurrent.futures` state is reduced to what the code observes of it:
  `resultRunning` models `self.result is not None and self.result.running()`,
  and `poolGen` counts `ThreadPoolExecutor` creations so that "a new worker
  pool is started" is observable.
-/

/-- One row of the product table. `uuid` is the DataFrame index value,
`identifier` and `title` are the corresponding columns; `date` and `tile` are
the columns derived in `SSatDownloader.query`; `online`, `downloaded`,
`qlook` are the boolean status columns; `beginposition` is the sort key used
by `query` (modelled as an integer timestamp). -/
structure Row where
  uuid : String
  identifier : String
  title : String
  date : String
  tile : String
  online : Bool
  downloaded : Bool
  qlook : Bool
  beginposition : Int
deriving DecidableEq

/-- A DataFrame of product rows, in row order. -/
abbrev Ledger := List Row

/-- Filesystem state: `paths` are the existing files/directories probed via
`Path.exists`; `csv` maps a path to the ledger persisted there via
`to_csv`/`read_csv` (most recent write first). -/
structure FileSystem where
  paths : List String
  csv : List (String × Ledger)
deriving DecidableEq

/-- Path existence check, `Path.exists`. -/
def fsHas (fs : FileSystem) (p : String) : Bool :=
  decide (p ∈ fs.paths)

/-- Read a persisted ledger file, `pd.read_csv`. -/
def fsRead (fs : FileSystem) (p : String) : Option Ledger :=
  (fs.csv.find? (fun e => e.1 == p)).map (fun e => e.2)

/-- Write a persisted ledger file, `DataFrame.to_csv` (overwrites). -/
def fsWrite (fs : FileSystem) (p : String) (l : Ledger) : FileSystem :=
  ⟨fs.paths, (p, l) :: fs.csv.filter (fun e => e.1 ≠ p)⟩

/-- Join one path component, `Path.__truediv__`. -/
def pathJoin (a b : String) : String := a ++ "/" ++ b

/-- Helper for `pyWithSuffix`: given the reversed characters of a file name,
return the reversed stem if the name has a non-empty Python suffix
(a dot at position `i` with `0 < i < len - 1`; the head of the reversed list
has already been checked not to be the dot). -/
def pyStemRevAux : List Char → Option (List Char)
  | [] => none
  | c :: rest =>
    if c = '.' then (if rest.isEmpty then none else some rest)
    else pyStemRevAux rest

/-- Dispatch of `pyWithSuffix` on the reversed character list of the name
(a dot as the very last character means the name has no Python suffix). -/
def pyWithSuffixRev (name suffix : String) : List Char → String
  | [] => name ++ suffix
  | c :: rest =>
    if c = '.' then name ++ suffix
    else
      match pyStemRevAux (c :: rest) with
      | none => name ++ suffix
      | some stemRev => String.mk stemRev.reverse ++ suffix

/-- Python `PurePath.with_suffix` on a single file name: replace the name's
extension (if it has one, per Python's suffix rule) by `suffix`, otherwise
append `suffix`. Faithful for names not containing a path separator. -/
def pyWithSuffix (name suffix : String) : String :=
  pyWithSuffixRev name suffix name.data.reverse

/-! ## SSatDatabase (ssat_database.py) -/

/-- Name of the persisted ledger file, `SSatDatabase.db_csv_name`. -/
def dbCsvName : String := "download_db.csv"

/-- Subdirectory for thumbnails, `SSatDatabase.qlooks_dir`. -/
def qlooksDirName : String := "qlooks"

/-- Subdirectory for full artifacts, `SSatDatabase.images_dir`. -/
def imagesDirName : String := "images"

/-- The `images` subfolder of a database root, `SSatDatabase.images_folder`. -/
def imagesFolderOf (base : String) : String := pathJoin base imagesDirName

/-- The `qlooks` subfolder of a database root, `SSatDatabase.qlooks_folder`. -/
def qlooksFolderOf (base : String) : String := pathJoin base qlooksDirName

/-- Expected thumbnail path for an identifier,
`SSatDatabase.quick_looks_targets` (per row). -/
def qlookTarget (base : String) (identifier : String) : String :=
  pathJoin (qlooksFolderOf base) (identifier ++ ".jpeg")

/-- `SSatDatabase.check_image`: the artifact exists as a `.zip` file or a
`.SAFE` directory, using `Path.with_suffix` on `images_folder / identifier`. -/
def check_image (fs : FileSystem) (imagesFolder : String) (identifier : String) : Bool :=
  fsHas fs (pathJoin imagesFolder (pyWithSuffix identifier ".zip")) ||
  fsHas fs (pathJoin imagesFolder (pyWithSuffix identifier ".SAFE"))

/-- The mutable state of `SSatDatabase`: `self.folder` and `self.df`. Every
code path sets or clears the two fields together, so they are packaged as one
option (`none` means uninitialized, i.e. `self.df is None`). -/
structure SSatDatabase where
  store : Option (String × Ledger)
deriving DecidableEq

/-- The in-memory ledger of a database (empty when uninitialized). -/
def dbLedger (db : SSatDatabase) : Ledger :=
  match db.store with
  | some fl => fl.2
  | none => []

/-- `SSatDatabase.save_db`: persist the in-memory ledger to
`folder / db_csv_name` when initialized. -/
def save_db (db : SSatDatabase) (fs : FileSystem) : FileSystem :=
  match db.store with
  | some (f, l) => fsWrite fs (pathJoin f dbCsvName) l
  | none => fs

/-- `SSatDatabase.create`: fail (and clear the handle) if the base directory
already exists; otherwise create root, `qlooks` and `images` directories and
an empty ledger, persisted immediately. Returns (success, db, fs). -/
def create (db : SSatDatabase) (fs : FileSystem) (baseDir : String) :
    Bool × SSatDatabase × FileSystem :=
  if fsHas fs baseDir then
    (false, ⟨none⟩, fs)
  else
    let fs1 : FileSystem :=
      ⟨baseDir :: qlooksFolderOf baseDir :: imagesFolderOf baseDir :: fs.paths, fs.csv⟩
    let db1 : SSatDatabase := ⟨some (baseDir, [])⟩
    (true, db1, save_db db1 fs1)

/-- The row-level flag recomputation of `SSatDatabase.update`:
`downloaded` from `check_image` on the row's `images_targets` entry and
`qlook` from `Path.exists` on its `quick_looks_targets` entry. -/
def flagRow (fs : FileSystem) (base : String) (r : Row) : Row :=
  { r with
    downloaded := check_image fs (imagesFolderOf base) r.identifier
    qlook := fsHas fs (qlookTarget base r.identifier) }

/-- The whole-column flag recomputation of `SSatDatabase.update`. -/
def mapFlags (fs : FileSystem) (base : String) (l : Ledger) : Ledger :=
  l.map (flagRow fs base)

/-- Drop rows whose index value already occurred earlier
(`df[~df.index.duplicated()]`, keep first), with an accumulator of seen keys. -/
def dedupAux (seen : List String) : Ledger → Ledger
  | [] => []
  | r :: rest =>
    if r.uuid ∈ seen then dedupAux seen rest
    else r :: dedupAux (r.uuid :: seen) rest

/-- Keep the first row for each index value, `df[~df.index.duplicated()]`. -/
def dedupKeys (l : Ledger) : Ledger := dedupAux [] l

/-- `SSatDatabase.update` (the spec's `reconcile`): when initialized and
non-empty, recompute `downloaded`/`qlook` from the filesystem, drop duplicate
index values keeping the first, and persist. -/
def update (db : SSatDatabase) (fs : FileSystem) : SSatDatabase × FileSystem :=
  match db.store with
  | some (f, l) =>
    if l.isEmpty then (db, fs)
    else
      let db1 : SSatDatabase := ⟨some (f, dedupKeys (mapFlags fs f l))⟩
      (db1, save_db db1 fs)
  | none => (db, fs)

/-- The index values of a ledger (`df.index`). -/
def ledgerKeys (l : Ledger) : List String := l.map (fun r => r.uuid)

/-- The row merge of `SSatDatabase.add_data`:
`to_add = df[~df.index.isin(self.df.index)]` then `concat`. -/
def mergeRows (l newRows : Ledger) : Ledger :=
  l ++ newRows.filter (fun r => decide (r.uuid ∉ ledgerKeys l))

/-- `SSatDatabase.add_data`: no-op when uninitialized; otherwise append the
incoming rows whose index value is not already present, and persist. -/
def add_data (db : SSatDatabase) (fs : FileSystem) (newRows : Ledger) :
    SSatDatabase × FileSystem :=
  match db.store with
  | some (f, l) =>
    let db1 : SSatDatabase := ⟨some (f, mergeRows l newRows)⟩
    (db1, save_db db1 fs)
  | none => (db, fs)

/-- `SSatDatabase.open` (named `openDb` because `open` is a Lean keyword):
succeed only when the ledger file and both subdirectories exist; on success
load the ledger and immediately reconcile (`self.update()`); on failure clear
the handle. Returns (success, db, fs). -/
def openDb (db : SSatDatabase) (fs : FileSystem) (baseDir : String) :
    Bool × SSatDatabase × FileSystem :=
  match fsRead fs (pathJoin baseDir dbCsvName) with
  | some l =>
    if fsHas fs (imagesFolderOf baseDir) && fsHas fs (qlooksFolderOf baseDir) then
      let r := update ⟨some (baseDir, l)⟩ fs
      (true, r.1, r.2)
    else
      (false, ⟨none⟩, fs)
  | none => (false, ⟨none⟩, fs)

/-! ## SSatDownloader (ssat_downloader.py) -/

/-- The state of `SSatDownloader` that the claims observe: the owned
`SSatDatabase`, the transient `self._search_df` (Search Result Set),
whether `self.api` is a valid connection, whether `self.result` is a running
future (`self.result is not None and self.result.running()`), and a counter
of `ThreadPoolExecutor` creations. -/
structure SSatDownloader where
  db : SSatDatabase
  searchDf : Option Ledger
  apiValid : Bool
  resultRunning : Bool
  poolGen : Nat
deriving DecidableEq

/-- `SSatDownloader.check_search_df`: the Search Result Set exists and is
non-empty. -/
def check_search_df (s : SSatDownloader) : Bool :=
  match s.searchDf with
  | none => false
  | some l => !l.isEmpty

/-- `SSatDownloader._is_downloading`: a download future exists and reports
running. -/
def is_downloading (s : SSatDownloader) : Bool := s.resultRunning

/-- `SSatDownloader.combined_df`: Search Result Set (when non-empty) stacked
on top of the Record Store ledger (when initialized), duplicates dropped by
index keeping the first occurrence (so Search Result Set rows win). -/
def combined_df (s : SSatDownloader) : Option Ledger :=
  let r1 : Option Ledger := if check_search_df s then s.searchDf else none
  match r1, s.db.store with
  | none, none => none
  | some sd, none => some (dedupKeys sd)
  | none, some (_, l) => some (dedupKeys l)
  | some sd, some (_, l) => some (dedupKeys (sd ++ l))

/-- `SSatDownloader.to_download`: `None` when the Record Store is
uninitialized, otherwise the combined view restricted to rows whose
`downloaded` flag is false. -/
def to_download (s : SSatDownloader) : Option Ledger :=
  match s.db.store with
  | none => none
  | some _ => (combined_df s).map (fun l => l.filter (fun r => !r.downloaded))

/-- `SSatDownloader.update_local_info`: reconcile the Record Store first;
then, when the Search Result Set is non-empty, either default its
`downloaded`/`qlook` to false (store uninitialized) or recompute them — as
the source does — from `Path.exists` on `images_folder / (title + ".zip")`
and `qlooks_folder / (title + ".jpeg")` (pandas aligns the assigned series
by index; the combined row for a search index is the search row itself, so
each search row gets the check of its own `title`). -/
def update_local_info (s : SSatDownloader) (fs : FileSystem) :
    SSatDownloader × FileSystem :=
  let r := update s.db fs
  let s1 : SSatDownloader := { s with db := r.1 }
  let fs1 := r.2
  match s1.searchDf with
  | none => (s1, fs1)
  | some sd =>
    if sd.isEmpty then (s1, fs1)
    else
      match s1.db.store with
      | none =>
        ({ s1 with
            searchDf := some (sd.map fun r => { r with downloaded := false, qlook := false }) },
         fs1)
      | some (f, _) =>
        ({ s1 with
            searchDf := some (sd.map fun r =>
              { r with
                downloaded := fsHas fs1 (pathJoin (imagesFolderOf f) (r.title ++ ".zip"))
                qlook := fsHas fs1 (pathJoin (qlooksFolderOf f) (r.title ++ ".jpeg")) }) },
         fs1)

/-- `SSatDownloader.download_all`: no-op when the Record Store is
uninitialized; otherwise merge the Search Result Set (when present) into the
store, stop if nothing is left to download, and either launch a background
download (replace the worker pool: `poolGen` increments, the download future
is running) or download synchronously and reconcile. `extDl` stands for the
out-of-scope filesystem effect of the external client's bulk download
(`maxAttempts` is delegated entirely to that client). -/
def download_all (extDl : FileSystem → FileSystem) (maxAttempts : Nat)
    (s : SSatDownloader) (fs : FileSystem) (background : Bool) :
    SSatDownloader × FileSystem :=
  match s.db.store with
  | none => (s, fs)
  | some _ =>
    let r1 :=
      match s.searchDf with
      | some sd => add_data s.db fs sd
      | none => (s.db, fs)
    let s1 : SSatDownloader := { s with db := r1.1 }
    let fs1 := r1.2
    match to_download s1 with
    | none => (s1, fs1)
    | some l =>
      if l.isEmpty then (s1, fs1)
      else if background then
        ({ s1 with poolGen := s1.poolGen + 1, resultRunning := true }, fs1)
      else
        update_local_info s1 (extDl fs1)

/-- Substring by character positions, Python `s[a:b]` (for `a ≤ b ≤ len`). -/
def strSlice (s : String) (a b : Nat) : String :=
  String.mk ((s.data.drop a).take (b - a))

/-- Comparison by the `beginposition` column. -/
def beginLE (a b : Row) : Prop := a.beginposition ≤ b.beginposition

/-- Insert a row into a list sorted by `beginposition`. -/
def insertBegin (r : Row) : Ledger → Ledger
  | [] => [r]
  | x :: xs =>
    if r.beginposition ≤ x.beginposition then r :: x :: xs
    else x :: insertBegin r xs

/-- `DataFrame.sort_values(by='beginposition')` (ascending). -/
def sortByBegin : Ledger → Ledger
  | [] => []
  | r :: rest => insertBegin r (sortByBegin rest)

/-- The per-row post-processing of `SSatDownloader.query`: derive `date` and
`tile` by fixed-offset slices of `title`, then set `online` from the per-row
probe (`api.is_online` on the index) when `search_online` is true, else
default it to false. -/
def deriveFields (probe : String → Bool) (searchOnline : Bool) (r : Row) : Row :=
  { r with
    date := strSlice r.title 11 19
    tile := strSlice r.title 39 44
    online := if searchOnline then probe r.uuid else false }

/-- `SSatDownloader.query`: rejected (state unchanged) without a valid
connection or while a background download is running; otherwise sort the api
result by `beginposition`, apply the post-filter, derive `date`/`tile` and
`online`, store the result as the Search Result Set and reconcile local
info. `apiRows` is the external query response, `postFilter` the post-filter
predicate (`fun r => true` when absent). -/
def query (probe : String → Bool) (s : SSatDownloader) (fs : FileSystem)
    (apiRows : Ledger) (postFilter : Row → Bool) (searchOnline : Bool) :
    SSatDownloader × FileSystem :=
  if !s.apiValid || is_downloading s then (s, fs)
  else
    let sorted := sortByBegin apiRows
    let filtered := sorted.filter postFilter
    let derived := filtered.map (deriveFields probe searchOnline)
    update_local_info { s with searchDf := some derived } fs

/-! ## Spec-side definition for the refinement claim C4 -/

/-- Written from the spec's words for comparison with `to_download`
(claim C4): "the deduplicated-by-identifier union of the Search Result Set
and the Record Store restricted to rows whose downloaded flag is false,
where on duplicate identifiers the Search Result Set row takes precedence
over the Record Store row". Deduplication keeps the first occurrence of each
identifier, with the Search Result Set listed first. -/
def specToDownload (search : Option Ledger) (dbRows : Ledger) : Ledger :=
  (dedupKeys (search.getD [] ++ dbRows)).filter (fun r => !r.downloaded)

/-! ## Mutating-operation alphabet for the persistence invariant (C9) -/

/-- A mutating Record Store operation: `create`, `add_data` (merge) or
`update` (reconcile). -/
inductive DbOp where
  | createOp (base : String)
  | addOp (rows : Ledger)
  | reconcileOp

/-- Apply a mutating operation to a database and filesystem. -/
def applyDbOp (db : SSatDatabase) (fs : FileSystem) : DbOp → SSatDatabase × FileSystem
  | DbOp.createOp base => (create db fs base).2
  | DbOp.addOp rows => add_data db fs rows
  | DbOp.reconcileOp => update db fs

/-- Write-through agreement: whenever the store is initialized, the ledger
file persisted at its folder holds exactly the in-memory ledger. -/
def persistedAgrees (db : SSatDatabase) (fs : FileSystem) : Prop :=
  ∀ f l, db.store = some (f, l) → fsRead fs (pathJoin f dbCsvName) = some l

/-! ## Helper lemmas -/

theorem fsRead_fsWrite_self (fs : FileSystem) (p : String) (l : Ledger) :
    fsRead (fsWrite fs p l) p = some l := by
  simp [fsRead, fsWrite, List.find?]

theorem fsHas_fsWrite (fs : FileSystem) (p q : String) (l : Ledger) :
    fsHas (fsWrite fs p l) q = fsHas fs q := rfl

theorem pyStemRevAux_of_no_dot :
    ∀ cs : List Char, '.' ∉ cs → pyStemRevAux cs = none := by
  intro cs
  induction cs with
  | nil => intro _; rfl
  | cons c rest ih =>
    intro h
    rw [List.mem_cons] at h
    push_neg at h
    rw [pyStemRevAux, if_neg (fun hc => h.1 hc.symm)]
    exact ih h.2

theorem pyWithSuffix_of_no_dot (name suffix : String) (h : '.' ∉ name.data) :
    pyWithSuffix name suffix = name ++ suffix := by
  rw [pyWithSuffix]
  have hrev : '.' ∉ name.data.reverse := by
    rw [List.mem_reverse]; exact h
  rcases hd : name.data.reverse with _ | ⟨c, rest⟩
  · rfl
  · rw [hd] at hrev
    rw [List.mem_cons] at hrev
    push_neg at hrev
    rw [pyWithSuffixRev, if_neg (fun hc => hrev.1 hc.symm),
      pyStemRevAux_of_no_dot (c :: rest) (by rw [List.mem_cons]; push_neg; exact hrev)]

theorem mem_of_mem_dedupAux {r : Row} :
    ∀ {l : Ledger} {seen : List String}, r ∈ dedupAux seen l → r ∈ l := by
  intro l
  induction l with
  | nil => intro seen h; exact absurd h (List.not_mem_nil r)
  | cons x xs ih =>
    intro seen h
    rw [dedupAux] at h
    by_cases hx : x.uuid ∈ seen
    · rw [if_pos hx] at h
      exact List.mem_cons_of_mem x (ih h)
    · rw [if_neg hx] at h
      rcases List.mem_cons.mp h with h | h
      · exact h ▸ List.mem_cons_self x xs
      · exact List.mem_cons_of_mem x (ih h)

theorem dedupAux_nodup_and_disjoint :
    ∀ (l : Ledger) (seen : List String),
      (ledgerKeys (dedupAux seen l)).Nodup ∧
        ∀ k ∈ ledgerKeys (dedupAux seen l), k ∉ seen := by
  intro l
  induction l with
  | nil =>
    intro seen
    exact ⟨List.nodup_nil, fun k hk => absurd hk (List.not_mem_nil k)⟩
  | cons x xs ih =>
    intro seen
    rw [dedupAux]
    by_cases hx : x.uuid ∈ seen
    · rw [if_pos hx]; exact ih seen
    · rw [if_neg hx]
      obtain ⟨hnd, hdisj⟩ := ih (x.uuid :: seen)
      constructor
      · rw [ledgerKeys, List.map_cons, List.nodup_cons]
        refine ⟨fun hmem => ?_, hnd⟩
        exact (hdisj _ hmem) (List.mem_cons_self _ _)
      · intro k hk
        rw [ledgerKeys, List.map_cons, List.mem_cons] at hk
        rcases hk with rfl | hk
        · exact hx
        · intro hks
          exact (hdisj k hk) (List.mem_cons_of_mem _ hks)

theorem dedupAux_eq_self :
    ∀ (l : Ledger) (seen : List String), (ledgerKeys l).Nodup →
      (∀ k ∈ ledgerKeys l, k ∉ seen) → dedupAux seen l = l := by
  intro l
  induction l with
  | nil => intro seen _ _; rfl
  | cons x xs ih =>
    intro seen hnd hdisj
    rw [ledgerKeys, List.map_cons, List.nodup_cons] at hnd
    have hx : x.uuid ∉ seen :=
      hdisj x.uuid (by rw [ledgerKeys, List.map_cons]; exact List.mem_cons_self _ _)
    rw [dedupAux, if_neg hx]
    congr 1
    refine ih (x.uuid :: seen) hnd.2 (fun k hk => ?_)
    intro hks
    rcases List.mem_cons.mp hks with rfl | hks
    · exact hnd.1 hk
    · exact hdisj k (by rw [ledgerKeys, List.map_cons]; exact List.mem_cons_of_mem _ hk) hks

theorem dedupKeys_nodup (l : Ledger) : (ledgerKeys (dedupKeys l)).Nodup :=
  (dedupAux_nodup_and_disjoint l []).1

theorem dedupKeys_idem (l : Ledger) : dedupKeys (dedupKeys l) = dedupKeys l :=
  dedupAux_eq_self (dedupKeys l) [] (dedupKeys_nodup l)
    (fun k _ => List.not_mem_nil k)

theorem dedupAux_map (φ : Row → Row) (hφ : ∀ r, (φ r).uuid = r.uuid) :
    ∀ (l : Ledger) (seen : List String),
      dedupAux seen (l.map φ) = (dedupAux seen l).map φ := by
  intro l
  induction l with
  | nil => intro seen; rfl
  | cons x xs ih =>
    intro seen
    rw [List.map_cons, dedupAux, dedupAux, hφ]
    by_cases hx : x.uuid ∈ seen
    · rw [if_pos hx, if_pos hx, ih]
    · rw [if_neg hx, if_neg hx, List.map_cons, ih]

theorem dedupKeys_ne_nil {l : Ledger} (h : l ≠ []) : dedupKeys l ≠ [] := by
  rcases l with _ | ⟨x, xs⟩
  · exact absurd rfl h
  · rw [dedupKeys, dedupAux, if_neg (List.not_mem_nil x.uuid)]
    exact List.cons_ne_nil _ _

theorem mem_keys_iff {k : String} {l : Ledger} :
    k ∈ ledgerKeys l ↔ ∃ r ∈ l, r.uuid = k := by
  rw [ledgerKeys, List.mem_map]

theorem keys_mergeRows (l newRows : Ledger) :
    ledgerKeys (mergeRows l newRows) =
      ledgerKeys l ++ ledgerKeys (newRows.filter (fun r => decide (r.uuid ∉ ledgerKeys l))) := by
  rw [mergeRows, ledgerKeys, List.map_append]; rfl

theorem mem_keys_filter_not_in {k : String} {l newRows : Ledger} :
    k ∈ ledgerKeys (newRows.filter (fun r => decide (r.uuid ∉ ledgerKeys l))) ↔
      k ∈ ledgerKeys newRows ∧ k ∉ ledgerKeys l := by
  constructor
  · intro h
    obtain ⟨r, hr, rfl⟩ := mem_keys_iff.mp h
    rw [List.mem_filter, decide_eq_true_eq] at hr
    exact ⟨mem_keys_iff.mpr ⟨r, hr.1, rfl⟩, hr.2⟩
  · intro ⟨hnew, hnot⟩
    obtain ⟨r, hr, rfl⟩ := mem_keys_iff.mp hnew
    exact mem_keys_iff.mpr ⟨r, List.mem_filter.mpr ⟨hr, decide_eq_true hnot⟩, rfl⟩

theorem mem_keys_mergeRows {k : String} {l newRows : Ledger} :
    k ∈ ledgerKeys (mergeRows l newRows) ↔ k ∈ ledgerKeys l ∨ k ∈ ledgerKeys newRows := by
  rw [keys_mergeRows, List.mem_append, mem_keys_filter_not_in]
  constructor
  · rintro (h | ⟨h, _⟩)
    · exact Or.inl h
    · exact Or.inr h
  · intro h
    by_cases hl : k ∈ ledgerKeys l
    · exact Or.inl hl
    · rcases h with h | h
      · exact absurd h hl
      · exact Or.inr ⟨h, hl⟩

theorem mergeRows_nodup {l newRows : Ledger}
    (hl : (ledgerKeys l).Nodup) (hnew : (ledgerKeys newRows).Nodup) :
    (ledgerKeys (mergeRows l newRows)).Nodup := by
  rw [keys_mergeRows, List.nodup_append]
  refine ⟨hl, ?_, ?_⟩
  · exact List.Nodup.sublist (List.Sublist.map _ (List.filter_sublist newRows)) hnew
  · intro k hk hk2
    exact (mem_keys_filter_not_in.mp hk2).2 hk

theorem mem_insertBegin {b r : Row} :
    ∀ {l : Ledger}, b ∈ insertBegin r l ↔ b = r ∨ b ∈ l := by
  intro l
  induction l with
  | nil => rw [insertBegin]; simp
  | cons x xs ih =>
    rw [insertBegin]
    by_cases hc : r.beginposition ≤ x.beginposition
    · rw [if_pos hc]; simp
    · rw [if_neg hc, List.mem_cons, List.mem_cons, ih]
      tauto

theorem sorted_insertBegin (r : Row) {l : Ledger} (h : List.Sorted beginLE l) :
    List.Sorted beginLE (insertBegin r l) := by
  induction l with
  | nil =>
    rw [insertBegin]
    exact List.sorted_singleton r
  | cons x xs ih =>
    rw [List.sorted_cons] at h
    obtain ⟨hx, hxs⟩ := h
    rw [insertBegin]
    by_cases hc : r.beginposition ≤ x.beginposition
    · rw [if_pos hc, List.sorted_cons]
      refine ⟨fun b hb => ?_, List.sorted_cons.mpr ⟨hx, hxs⟩⟩
      rcases List.mem_cons.mp hb with rfl | hb
      · exact hc
      · exact le_trans hc (hx b hb)
    · rw [if_neg hc, List.sorted_cons]
      refine ⟨fun b hb => ?_, ih hxs⟩
      rcases mem_insertBegin.mp hb with rfl | hb
      · exact le_of_not_le hc
      · exact hx b hb

theorem sorted_sortByBegin : ∀ l : Ledger, List.Sorted beginLE (sortByBegin l) := by
  intro l
  induction l with
  | nil => exact List.sorted_nil
  | cons x xs ih =>
    rw [sortByBegin]
    exact sorted_insertBegin x ih

theorem mapFlags_fsWrite (fs : FileSystem) (p : String) (c : Ledger) (base : String)
    (l : Ledger) : mapFlags (fsWrite fs p c) base l = mapFlags fs base l := rfl

theorem flagRow_uuid (fs : FileSystem) (base : String) (r : Row) :
    (flagRow fs base r).uuid = r.uuid := rfl

theorem mapFlags_dedupKeys (fs : FileSystem) (base : String) (l : Ledger) :
    mapFlags fs base (dedupKeys l) = dedupKeys (mapFlags fs base l) :=
  (dedupAux_map (flagRow fs base) (fun _ => rfl) l []).symm

theorem mapFlags_idem (fs : FileSystem) (base : String) (l : Ledger) :
    mapFlags fs base (mapFlags fs base l) = mapFlags fs base l := by
  simp only [mapFlags, List.map_map]
  exact List.map_congr_left (fun r _ => rfl)

theorem mapFlags_ne_nil (fs : FileSystem) (base : String) {l : Ledger} (h : l ≠ []) :
    mapFlags fs base l ≠ [] := by
  rcases l with _ | ⟨x, xs⟩
  · exact absurd rfl h
  · rw [mapFlags, List.map_cons]
    exact List.cons_ne_nil _ _

/-- Concrete row builder for witnesses and counterexamples. -/
def mkRow (uuid identifier title : String) (dl ql : Bool) : Row :=
  ⟨uuid, identifier, title, "", "", false, dl, ql, 0⟩

/-- Concrete rows and filesystems used in witnesses and counterexamples. -/
def rowA : Row := mkRow "uA" "A" "A" false false

def rowB : Row := mkRow "uB" "B" "B" false false

def rowC : Row := mkRow "uC" "C" "C" false false

def fsEmpty : FileSystem := ⟨[], []⟩

/-! ## Claim C2 -/

/-- Claim C2: merging two row sets `R1`, `R2` sequentially into an
initialized store (whose ledger, per the data-model invariant, has no
duplicate index values, and where each `Ri` is a row set, i.e. has no
internal duplicates) yields a ledger with no two rows sharing an index
value, in which every index value occurring exactly once across
`R1 ++ R2` occurs exactly once. -/
theorem add_data_no_duplicate_identifiers
    (f : String) (S R1 R2 : Ledger) (fs : FileSystem)
    (hS : (ledgerKeys S).Nodup) (h1 : (ledgerKeys R1).Nodup)
    (h2 : (ledgerKeys R2).Nodup) :
    (add_data (add_data ⟨some (f, S)⟩ fs R1).1 (add_data ⟨some (f, S)⟩ fs R1).2 R2).1.store
        = some (f, mergeRows (mergeRows S R1) R2) ∧
    (ledgerKeys (mergeRows (mergeRows S R1) R2)).Nodup ∧
    ∀ k, (ledgerKeys R1 ++ ledgerKeys R2).count k = 1 →
      (ledgerKeys (mergeRows (mergeRows S R1) R2)).count k = 1 := by
  have hnd : (ledgerKeys (mergeRows (mergeRows S R1) R2)).Nodup :=
    mergeRows_nodup (mergeRows_nodup hS h1) h2
  refine ⟨rfl, hnd, fun k hk => ?_⟩
  have hmem : k ∈ ledgerKeys R1 ∨ k ∈ ledgerKeys R2 := by
    rw [List.count_append] at hk
    by_contra hcon
    push_neg at hcon
    obtain ⟨hc1, hc2⟩ := hcon
    rw [← List.count_eq_zero] at hc1 hc2
    omega
  refine List.count_eq_one_of_mem hnd ?_
  rw [mem_keys_mergeRows, mem_keys_mergeRows]
  tauto

/-- Witness for C2 at the spec's own scenario: store starts empty, merge
rows `A`,`B`, then merge `B`,`C`. -/
theorem add_data_no_duplicate_identifiers_witness :
    (add_data (add_data ⟨some ("db", [])⟩ fsEmpty [rowA, rowB]).1
        (add_data ⟨some ("db", [])⟩ fsEmpty [rowA, rowB]).2 [rowB, rowC]).1.store
        = some ("db", mergeRows (mergeRows [] [rowA, rowB]) [rowB, rowC]) ∧
    (ledgerKeys (mergeRows (mergeRows [] [rowA, rowB]) [rowB, rowC])).Nodup ∧
    ∀ k, (ledgerKeys [rowA, rowB] ++ ledgerKeys [rowB, rowC]).count k = 1 →
      (ledgerKeys (mergeRows (mergeRows [] [rowA, rowB]) [rowB, rowC])).count k = 1 :=
  add_data_no_duplicate_identifiers "db" [] [rowA, rowB] [rowB, rowC] fsEmpty
    (by decide) (by decide) (by decide)

/-! ## Claim C3 -/

/-- Claim C3: `update` (the spec's `reconcile`) is idempotent on an
initialized, non-empty store with a fixed filesystem: running it a second
time on the state produced by the first run yields an identical database
(in particular an identical ledger). -/
theorem update_idempotent (f : String) (l : Ledger) (fs : FileSystem) (h : l ≠ []) :
    (update (update ⟨some (f, l)⟩ fs).1 (update ⟨some (f, l)⟩ fs).2).1 =
      (update ⟨some (f, l)⟩ fs).1 := by
  have hE : l.isEmpty = false := by
    rcases l with _ | _
    · exact absurd rfl h
    · rfl
  have hE2 : (dedupKeys (mapFlags fs f l)).isEmpty = false := by
    rcases hd : dedupKeys (mapFlags fs f l) with _ | _
    · exact absurd hd (dedupKeys_ne_nil (mapFlags_ne_nil fs f h))
    · rfl
  simp only [update, hE, Bool.false_eq_true, if_false, save_db, hE2,
    mapFlags_fsWrite]
  rw [mapFlags_dedupKeys, mapFlags_idem, dedupKeys_idem]

/-- Witness for C3 at a concrete one-row store and empty filesystem. -/
theorem update_idempotent_witness :
    (update (update ⟨some ("db", [rowA])⟩ fsEmpty).1 (update ⟨some ("db", [rowA])⟩ fsEmpty).2).1 =
      (update ⟨some ("db", [rowA])⟩ fsEmpty).1 :=
  update_idempotent "db" [rowA] fsEmpty (by decide)

/-! ## Claim C4 -/

/-- Claim C4: whenever the Record Store is initialized, `to_download` equals
the spec-side description `specToDownload`: the deduplicated-by-index union
of Search Result Set and Record Store (Search Result Set rows first, hence
taking precedence on duplicates) restricted to rows not yet downloaded. -/
theorem to_download_refines_spec (s : SSatDownloader) (f : String) (l : Ledger)
    (h : s.db.store = some (f, l)) :
    to_download s = some (specToDownload s.searchDf l) := by
  rcases hsd : s.searchDf with _ | sd
  · simp [to_download, combined_df, check_search_df, h, hsd, specToDownload]
  · rcases sd with _ | ⟨x, xs⟩
    · simp [to_download, combined_df, check_search_df, h, hsd, specToDownload]
    · simp [to_download, combined_df, check_search_df, h, hsd, specToDownload]

/-- Witness for C4: a store holding `B` and a search result holding `A`;
both sides evaluate to `[A, B]`. -/
theorem to_download_refines_spec_witness :
    to_download ⟨⟨some ("db", [rowB])⟩, some [rowA], true, false, 0⟩ =
      some (specToDownload (some [rowA]) [rowB]) ∧
    specToDownload (some [rowA]) [rowB] = [rowA, rowB] :=
  ⟨to_download_refines_spec ⟨⟨some ("db", [rowB])⟩, some [rowA], true, false, 0⟩
      "db" [rowB] rfl,
    by decide⟩

/-! ## Claim C8 -/

/-- Claim C8: `open` succeeds exactly when the persisted ledger file and
both required subdirectories (`images`, `qlooks`) are present; on failure
the store is left uninitialized. -/
theorem openDb_requires_layout (db : SSatDatabase) (fs : FileSystem) (base : String) :
    ((openDb db fs base).1 = true ↔
      (fsRead fs (pathJoin base dbCsvName)).isSome = true ∧
      fsHas fs (imagesFolderOf base) = true ∧
      fsHas fs (qlooksFolderOf base) = true) ∧
    ((openDb db fs base).1 = false → (openDb db fs base).2.1.store = none) := by
  rcases hr : fsRead fs (pathJoin base dbCsvName) with _ | l
  · simp [openDb, hr]
  · by_cases h1 : fsHas fs (imagesFolderOf base) = true
    · by_cases h2 : fsHas fs (qlooksFolderOf base) = true
      · simp [openDb, hr, h1, h2]
      · simp [openDb, hr, h1, h2]
    · simp [openDb, hr, h1]

/-- Witness for C8 at a concrete path with no layout present: `open` fails
and the store ends uninitialized. -/
theorem openDb_requires_layout_witness :
    ((openDb ⟨none⟩ fsEmpty "p").1 = true ↔
      (fsRead fsEmpty (pathJoin "p" dbCsvName)).isSome = true ∧
      fsHas fsEmpty (imagesFolderOf "p") = true ∧
      fsHas fsEmpty (qlooksFolderOf "p") = true) ∧
    ((openDb ⟨none⟩ fsEmpty "p").1 = false → (openDb ⟨none⟩ fsEmpty "p").2.1.store = none) :=
  openDb_requires_layout ⟨none⟩ fsEmpty "p"

/-! ## Claim C9 -/

/-- Claim C9: write-through persistence. Every mutating Record Store
operation (`create`, `add_data`, `update`) preserves the agreement between
the persisted ledger file and the in-memory ledger of an initialized store. -/
theorem applyDbOp_write_through (db : SSatDatabase) (fs : FileSystem) (op : DbOp)
    (h : persistedAgrees db fs) :
    persistedAgrees (applyDbOp db fs op).1 (applyDbOp db fs op).2 := by
  cases op with
  | createOp base =>
    by_cases hb : fsHas fs base = true
    · intro f l hfl
      simp [applyDbOp, create, hb] at hfl
    · intro f l hfl
      simp only [applyDbOp, create, hb, Bool.false_eq_true, if_false, save_db,
        Option.some.injEq, Prod.mk.injEq] at hfl ⊢
      obtain ⟨rfl, rfl⟩ := hfl
      exact fsRead_fsWrite_self _ _ _
  | addOp rows =>
    rcases hst : db.store with _ | ⟨f0, l0⟩
    · intro f l hfl
      simp only [applyDbOp, add_data, hst] at hfl
      exact Option.noConfusion hfl
    · intro f l hfl
      simp only [applyDbOp, add_data, hst, save_db, Option.some.injEq,
        Prod.mk.injEq] at hfl ⊢
      obtain ⟨rfl, rfl⟩ := hfl
      exact fsRead_fsWrite_self _ _ _
  | reconcileOp =>
    rcases hst : db.store with _ | ⟨f0, l0⟩
    · intro f l hfl
      simp only [applyDbOp, update, hst] at hfl
      exact Option.noConfusion hfl
    · by_cases hE : l0.isEmpty = true
      · intro f l hfl
        simp only [applyDbOp, update, hst, hE, if_true] at hfl ⊢
        exact h f l (hst.trans hfl)
      · intro f l hfl
        simp only [applyDbOp, update, hst, hE, Bool.false_eq_true, if_false,
          save_db, Option.some.injEq, Prod.mk.injEq] at hfl ⊢
        obtain ⟨rfl, rfl⟩ := hfl
        exact fsRead_fsWrite_self _ _ _

/-- Witness for C9: creating a fresh database from an uninitialized handle
and an empty filesystem establishes persisted agreement. -/
theorem applyDbOp_write_through_witness :
    persistedAgrees (applyDbOp ⟨none⟩ fsEmpty (DbOp.createOp "db")).1
      (applyDbOp ⟨none⟩ fsEmpty (DbOp.createOp "db")).2 :=
  applyDbOp_write_through ⟨none⟩ fsEmpty (DbOp.createOp "db")
    (fun _ _ hfl => Option.noConfusion hfl)

/-! ## Claim C7 -/

/-- Counterexample to claim C7 as stated: calling `create` on an existing
path from a previously initialized handle returns failure and leaves the
filesystem untouched, but it does NOT leave all pre-call state unchanged:
the in-memory store handle is wiped (`self.folder = None`, `self.df = None`),
so the database object differs from its pre-call state. -/
theorem create_existing_counterexample :
    (create ⟨some ("old", [rowA])⟩ ⟨["p"], []⟩ "p").1 = false ∧
    (create ⟨some ("old", [rowA])⟩ ⟨["p"], []⟩ "p").2.2 = ⟨["p"], []⟩ ∧
    (create ⟨some ("old", [rowA])⟩ ⟨["p"], []⟩ "p").2.1 ≠ ⟨some ("old", [rowA])⟩ := by
  decide

/-- Claim C7 (amended): for every path that already exists, `create`
returns failure, the filesystem is unchanged (no directories or ledger
file are created), and the in-memory store handle is reset to
uninitialized (rather than left unchanged). -/
theorem create_existing_no_partial_state (db : SSatDatabase) (fs : FileSystem)
    (base : String) (h : fsHas fs base = true) :
    (create db fs base).1 = false ∧
    (create db fs base).2.2 = fs ∧
    (create db fs base).2.1.store = none := by
  simp [create, h]

/-- Witness for the amended C7 at the concrete pre-initialized state of the
counterexample. -/
theorem create_existing_no_partial_state_witness :
    (create ⟨some ("old", [rowA])⟩ ⟨["p"], []⟩ "p").1 = false ∧
    (create ⟨some ("old", [rowA])⟩ ⟨["p"], []⟩ "p").2.2 = ⟨["p"], []⟩ ∧
    (create ⟨some ("old", [rowA])⟩ ⟨["p"], []⟩ "p").2.1.store = none :=
  create_existing_no_partial_state ⟨some ("old", [rowA])⟩ ⟨["p"], []⟩ "p" (by decide)

/-! ## Claim C5 -/

/-- Concrete row whose `identifier` contains a dot, exposing the
`Path.with_suffix` extension-replacement behavior. -/
def rowDot : Row := mkRow "uD" "a.b" "a.b" false false

/-- Filesystem containing `db/images/a.zip` (and neither `a.b.zip` nor
`a.b.SAFE`). -/
def fsDot : FileSystem := ⟨["db/images/a.zip"], []⟩

/-- Counterexample to claim C5 as stated: after reconcile, the row with
identifier `a.b` has `downloaded = true` although neither
`images/a.b.zip` nor `images/a.b.SAFE` exists — `Path.with_suffix`
replaced the `.b` extension, so the code actually probed `images/a.zip`. -/
theorem update_flags_counterexample :
    dbLedger (update ⟨some ("db", [rowDot])⟩ fsDot).1 =
      [{ rowDot with downloaded := true, qlook := false }] ∧
    fsHas fsDot (pathJoin (imagesFolderOf "db") ("a.b" ++ ".zip")) = false ∧
    fsHas fsDot (pathJoin (imagesFolderOf "db") ("a.b" ++ ".SAFE")) = false := by
  decide

/-- Claim C5 (amended): after reconcile on an initialized, non-empty store,
for every resulting row whose identifier contains no dot (so that
`with_suffix` appends rather than replaces), `downloaded` is true iff
`<identifier>.zip` or `<identifier>.SAFE` exists under the images
subdirectory; and for every resulting row, `qlook` is true iff
`<identifier>.jpeg` exists under the qlooks subdirectory. -/
theorem update_flags_match_filesystem (f : String) (l : Ledger) (fs : FileSystem)
    (hne : l ≠ []) (r : Row)
    (hr : r ∈ dbLedger (update ⟨some (f, l)⟩ fs).1) :
    ('.' ∉ r.identifier.data →
      (r.downloaded = true ↔
        (fsHas fs (pathJoin (imagesFolderOf f) (r.identifier ++ ".zip")) = true ∨
         fsHas fs (pathJoin (imagesFolderOf f) (r.identifier ++ ".SAFE")) = true))) ∧
    (r.qlook = true ↔ fsHas fs (qlookTarget f r.identifier) = true) := by
  have hE : l.isEmpty = false := by
    rcases l with _ | _
    · exact absurd rfl hne
    · rfl
  simp only [update, hE, Bool.false_eq_true, if_false, dbLedger] at hr
  have hr2 : r ∈ mapFlags fs f l := mem_of_mem_dedupAux hr
  rw [mapFlags, List.mem_map] at hr2
  obtain ⟨r0, _, rfl⟩ := hr2
  refine ⟨fun hdot => ?_, Iff.rfl⟩
  show check_image fs (imagesFolderOf f) r0.identifier = true ↔
    (fsHas fs (pathJoin (imagesFolderOf f) (r0.identifier ++ ".zip")) = true ∨
     fsHas fs (pathJoin (imagesFolderOf f) (r0.identifier ++ ".SAFE")) = true)
  have hdot2 : '.' ∉ r0.identifier.data := hdot
  rw [check_image, pyWithSuffix_of_no_dot _ _ hdot2, pyWithSuffix_of_no_dot _ _ hdot2]
  exact Bool.or_eq_true _ _ ▸ Iff.rfl

/-- Filesystem containing exactly `db/images/A.zip`. -/
def fsAzip : FileSystem := ⟨["db/images/A.zip"], []⟩

/-- Witness for the amended C5: row `A` (dot-free identifier) is flagged
downloaded after reconcile because `db/images/A.zip` exists. -/
theorem update_flags_match_filesystem_witness :
    ('.' ∉ ({ rowA with downloaded := true } : Row).identifier.data →
      (({ rowA with downloaded := true } : Row).downloaded = true ↔
        (fsHas fsAzip (pathJoin (imagesFolderOf "db")
            (({ rowA with downloaded := true } : Row).identifier ++ ".zip")) = true ∨
         fsHas fsAzip (pathJoin (imagesFolderOf "db")
            (({ rowA with downloaded := true } : Row).identifier ++ ".SAFE")) = true))) ∧
    (({ rowA with downloaded := true } : Row).qlook = true ↔
      fsHas fsAzip (qlookTarget "db" ({ rowA with downloaded := true } : Row).identifier) = true) :=
  update_flags_match_filesystem "db" [rowA] fsAzip (by decide)
    { rowA with downloaded := true } (by decide)

/-! ## Claim C6 -/

/-- Downloader state for the C6 counterexample: initialized empty store at
`db`, one search row `A`, valid api, no download running. -/
def c6state : SSatDownloader :=
  ⟨⟨some ("db", [])⟩, some [rowA], true, false, 0⟩

/-- Filesystem containing exactly the directory `db/images/A.SAFE`. -/
def fsSafe : FileSystem := ⟨["db/images/A.SAFE"], []⟩

/-- Counterexample to claim C6 as stated: with `db/images/A.SAFE` on disk,
the Record Store's reconcile check (`check_image`) reports row `A` as
downloaded, but `update_local_info` leaves the search row's `downloaded`
flag false — the Search Result Set recheck only probes
`images/<title>.zip` via `Path.exists`, not the same suffix rules. -/
theorem update_local_info_counterexample :
    (update_local_info c6state fsSafe).1.searchDf = some [rowA] ∧
    check_image fsSafe (imagesFolderOf "db") "A" = true := by
  decide

/-- Claim C6 (amended): for every call to `update_local_info` with a
non-empty Search Result Set, if the Record Store is uninitialized both
flags are set to false on every search row; if it is initialized,
`downloaded` is recomputed as plain existence of
`images/<title>.zip` (zip only — `.SAFE` artifacts are not recognized, and
the `title` column is used rather than `identifier`), and `qlook` as
existence of `qlooks/<title>.jpeg`; these are not the Record Store's
reconcile checks. -/
theorem update_local_info_flags (s : SSatDownloader) (fs : FileSystem) (sd : Ledger)
    (hsd : s.searchDf = some sd) (hne : sd ≠ []) :
    (s.db.store = none →
      (update_local_info s fs).1.searchDf =
        some (sd.map fun r => { r with downloaded := false, qlook := false })) ∧
    (∀ f l, s.db.store = some (f, l) →
      (update_local_info s fs).1.searchDf =
        some (sd.map fun r =>
          { r with
            downloaded := fsHas fs (pathJoin (imagesFolderOf f) (r.title ++ ".zip"))
            qlook := fsHas fs (pathJoin (qlooksFolderOf f) (r.title ++ ".jpeg")) })) := by
  have hE : sd.isEmpty = false := by
    rcases sd with _ | _
    · exact absurd rfl hne
    · rfl
  constructor
  · intro h
    simp [update_local_info, update, h, hsd, hE]
  · intro f l hfl
    by_cases hEl : l.isEmpty = true
    · simp [update_local_info, update, hfl, hEl, hsd, hE]
    · simp [update_local_info, update, hfl, hEl, hsd, hE, save_db, fsHas_fsWrite]

/-- Witness for the amended C6 at the counterexample state (initialized
store branch): the search row's flags come from `title`-based `.zip` and
`.jpeg` existence checks. -/
theorem update_local_info_flags_witness :
    (c6state.db.store = none →
      (update_local_info c6state fsSafe).1.searchDf =
        some ([rowA].map fun r => { r with downloaded := false, qlook := false })) ∧
    (∀ f l, c6state.db.store = some (f, l) →
      (update_local_info c6state fsSafe).1.searchDf =
        some ([rowA].map fun r =>
          { r with
            downloaded := fsHas fsSafe (pathJoin (imagesFolderOf f) (r.title ++ ".zip"))
            qlook := fsHas fsSafe (pathJoin (qlooksFolderOf f) (r.title ++ ".jpeg")) })) :=
  update_local_info_flags c6state fsSafe [rowA] rfl (by decide)

/-! ## Claim C1 -/

/-- Downloader state for the C1 counterexample: initialized empty store,
search result `A`, valid api, and a background download in flight
(`resultRunning = true`). -/
def c1state : SSatDownloader :=
  ⟨⟨some ("db", [])⟩, some [rowA], true, true, 0⟩

/-- Counterexample to claim C1 as stated: with a background download in
flight, `download_all` is not rejected: it merges the Search Result Set
into the Record Store (the store's ledger changes from `[]` to `[A]`) and
starts a new worker pool (`poolGen` increments). -/
theorem download_all_while_running_counterexample :
    is_downloading c1state = true ∧
    (download_all id 10 c1state fsEmpty true).1.db.store = some ("db", [rowA]) ∧
    (download_all id 10 c1state fsEmpty true).1.db ≠ c1state.db ∧
    (download_all id 10 c1state fsEmpty true).1.poolGen = c1state.poolGen + 1 := by
  decide

/-- Claim C1 (amended): only `query` is guarded by the in-flight check.
While a background download is running, `query` is rejected as a no-op
(state and filesystem unchanged), but `download_all` on an initialized
store still merges the Search Result Set into the Record Store; in
background mode the store after the call is exactly the store after that
merge (and a new pool is started whenever the to-download set is
non-empty). -/
theorem download_all_not_guarded (extDl : FileSystem → FileSystem)
    (probe : String → Bool) (maxAttempts : Nat) (s : SSatDownloader)
    (fs : FileSystem) (st : String × Ledger) (sd : Ledger)
    (apiRows : Ledger) (p : Row → Bool) (so : Bool)
    (hrun : is_downloading s = true) (hst : s.db.store = some st)
    (hsd : s.searchDf = some sd) :
    query probe s fs apiRows p so = (s, fs) ∧
    (download_all extDl maxAttempts s fs true).1.db = (add_data s.db fs sd).1 := by
  constructor
  · rw [query, if_pos]
    rw [is_downloading] at hrun
    simp [is_downloading, hrun]
  · rcases st with ⟨f0, l0⟩
    simp only [download_all, hst, hsd]
    split
    · rfl
    · split
      · rfl
      · rfl

/-- Witness for the amended C1 at the counterexample state. -/
theorem download_all_not_guarded_witness :
    query (fun _ => false) c1state fsEmpty [] (fun _ => true) false = (c1state, fsEmpty) ∧
    (download_all id 10 c1state fsEmpty true).1.db = (add_data c1state.db fsEmpty [rowA]).1 :=
  download_all_not_guarded id (fun _ => false) 10 c1state fsEmpty ("db", []) [rowA]
    [] (fun _ => true) false rfl rfl rfl

/-! ## Claim C10 -/

theorem update_local_info_searchDf_shape (s : SSatDownloader) (fs : FileSystem)
    (sd : Ledger) (h : s.searchDf = some sd) :
    ∃ g : Row → Row, (∀ r, (g r).beginposition = r.beginposition) ∧
      (update_local_info s fs).1.searchDf = some (sd.map g) := by
  by_cases hE : sd.isEmpty = true
  · refine ⟨id, fun _ => rfl, ?_⟩
    rw [List.map_id]
    simp [update_local_info, h, hE]
  · rcases hst : (update s.db fs).1.store with _ | ⟨f, l⟩
    · refine ⟨fun r => { r with downloaded := false, qlook := false }, fun _ => rfl, ?_⟩
      simp [update_local_info, h, hE, hst]
    · refine ⟨fun r =>
        { r with
          downloaded := fsHas (update s.db fs).2 (pathJoin (imagesFolderOf f) (r.title ++ ".zip"))
          qlook := fsHas (update s.db fs).2 (pathJoin (qlooksFolderOf f) (r.title ++ ".jpeg")) },
        fun _ => rfl, ?_⟩
      simp [update_local_info, h, hE, hst]

theorem sorted_filter_begin (p : Row → Bool) {l : Ledger}
    (h : List.Sorted beginLE l) : List.Sorted beginLE (l.filter p) :=
  List.Pairwise.filter p h

theorem sorted_map_begin (g : Row → Row)
    (hg : ∀ r, (g r).beginposition = r.beginposition) {l : Ledger}
    (h : List.Sorted beginLE l) : List.Sorted beginLE (l.map g) := by
  refine List.Pairwise.map g (fun a b hab => ?_) h
  rw [beginLE, hg, hg]
  exact hab

/-- Claim C10: a non-rejected `query` (valid connection, no background
download in flight) sorts the api response in ascending `beginposition`
order before the post-filter and the derived `date`/`tile` fields are
applied (the pipeline is sort, then filter, then derive), and the Search
Result Set it leaves behind is still sorted by `beginposition`. -/
theorem query_sorts_by_beginposition (probe : String → Bool) (s : SSatDownloader)
    (fs : FileSystem) (apiRows : Ledger) (p : Row → Bool) (so : Bool)
    (hapi : s.apiValid = true) (hdl : is_downloading s = false) :
    List.Sorted beginLE (sortByBegin apiRows) ∧
    (∃ l, (query probe s fs apiRows p so).1.searchDf = some l ∧
      List.Sorted beginLE l) := by
  refine ⟨sorted_sortByBegin apiRows, ?_⟩
  have hguard : (!s.apiValid || is_downloading s) = false := by
    rw [hapi, hdl]
    rfl
  rw [query, if_neg (by rw [hguard]; exact Bool.false_ne_true)]
  obtain ⟨g, hg, hshape⟩ := update_local_info_searchDf_shape
    { s with searchDf := some (((sortByBegin apiRows).filter p).map (deriveFields probe so)) }
    fs (((sortByBegin apiRows).filter p).map (deriveFields probe so)) rfl
  refine ⟨_, hshape, ?_⟩
  refine sorted_map_begin g hg ?_
  refine sorted_map_begin (deriveFields probe so) (fun _ => rfl) ?_
  exact sorted_filter_begin p (sorted_sortByBegin apiRows)

/-- Row builder with a given sort key. -/
def rowT (u : String) (b : Int) : Row := ⟨u, u, u, "", "", false, false, false, b⟩

/-- Witness for C10: a concrete two-row api response given out of order. -/
theorem query_sorts_by_beginposition_witness :
    List.Sorted beginLE (sortByBegin [rowT "u5" 5, rowT "u3" 3]) ∧
    (∃ l, (query (fun _ => false) ⟨⟨none⟩, none, true, false, 0⟩ fsEmpty
        [rowT "u5" 5, rowT "u3" 3] (fun _ => true) false).1.searchDf = some l ∧
      List.Sorted beginLE l) :=
  query_sorts_by_beginposition (fun _ => false) ⟨⟨none⟩, none, true, false, 0⟩
    fsEmpty [rowT "u5" 5, rowT "u3" 3] (fun _ => true) false rfl rfl
